import Mathlib

/-!
Shallow embedding of the test-and-calibration-track control layer.

Sources embedded here:
- scripts/calibrate_speed.py: start-of-motion binary search
  (SpeedCalibrator._search_threshold), sweep pass-count policy
  (SpeedCalibrator.run_sweep), per-step aggregation
  (SpeedCalibrator._aggregate_step), result polling
  (SpeedCalibrator.wait_for_result).
- scripts/loco_control.py: request/response correlation
  (LocoController._wait_for_request, LocoController._handle_response).
- scripts/decoder_volume.py: decoder family resolution (lookup_decoder)
  and volume control-value computation (compute_new_cv).
- scripts/audio_calibrate.py: the adjustment-recording outcome of
  compare_and_recommend.

JSON payloads are modelled by their parse outcome: a payload is either
malformed (json.loads raises JSONDecodeError) or a parsed record whose
optional keys are Option fields. Python float arithmetic is modelled by
exact rationals where the code only adds, divides and rounds, and by real
numbers where the code exponentiates (compute_new_cv). Python round with
no mode argument is round-half-to-even; it is modelled by roundHalfEvenQ
on rationals and roundHalfEvenR on reals.
-/

namespace TrackCal

/-- Constants START_OF_MOTION_LOW / START_OF_MOTION_HIGH from
calibrate_speed.py. -/
def START_OF_MOTION_LOW : Nat := 1

/-- Upper bound of the start-of-motion search range. -/
def START_OF_MOTION_HIGH : Nat := 20

/-- Python round(x) on a rational: round half to even. -/
def roundHalfEvenQ (q : ℚ) : ℤ :=
  let f := ⌊q⌋
  if q - f < 1 / 2 then f
  else if 1 / 2 < q - f then f + 1
  else if f % 2 = 0 then f else f + 1

/-- Python round(x, 1) on a rational: one decimal place, half to even. -/
def round1 (q : ℚ) : ℚ :=
  (roundHalfEvenQ (q * 10) : ℚ) / 10

/-- step_to_pct from calibrate_speed.py: round(step / 126.0 * 100.0, 1). -/
def step_to_pct (step : Nat) : ℚ :=
  round1 ((step : ℚ) / 126 * 100)

/-- A parsed sensor-array result message (the JSON dict produced by
json.loads on the speed-cal result topic). Each field is an Option because
the corresponding key may be missing from the dict. The value under
avg_speed_mph is itself an Option: the key may be present but hold a
string that float() cannot parse (inner none). -/
structure SensorResult where
  sensors_triggered : Option Nat
  avg_speed_mph : Option (Option ℚ)
  direction : Option String
  speeds_mph : Option (List ℚ)
deriving Repr, DecidableEq

/-- The triggered-sensor count read by _search_threshold:
triggered = 0; if result: triggered = result.get("sensors_triggered", 0). -/
def triggeredOf (result : Option SensorResult) : Nat :=
  match result with
  | some r => r.sensors_triggered.getD 0
  | none => 0

/-- The while-loop of SpeedCalibrator._search_threshold, with the probe
(set speed to mid, arm, measure) abstracted as a function from the probed
step to the measurement outcome. fuel bounds the number of iterations;
the interval shrinks every iteration, so fuel 21 is never exhausted on
the fixed range [1, 20]. -/
def searchGo (probe : Nat → Option SensorResult) : Nat → Nat → Nat → Nat → Nat
  | 0, _low, _high, best => best
  | fuel + 1, low, high, best =>
    if low ≤ high then
      let mid := (low + high) / 2
      if 2 ≤ triggeredOf (probe mid) then
        searchGo probe fuel low (mid - 1) mid
      else
        searchGo probe fuel (mid + 1) high best
    else best

/-- SpeedCalibrator._search_threshold: binary search over [1, 20] with
best initialised to the high bound. -/
def searchThreshold (probe : Nat → Option SensorResult) : Nat :=
  searchGo probe (START_OF_MOTION_HIGH + 1)
    START_OF_MOTION_LOW START_OF_MOTION_HIGH START_OF_MOTION_HIGH

/-- A movement oracle that reports 4 triggered sensors exactly at steps
at least T, and 0 below: the monotone oracle of the spec. -/
def monotoneProbe (T : Nat) : Nat → Option SensorResult :=
  fun s => some ⟨some (if T ≤ s then 4 else 0), none, none, none⟩

/-- One state of the _search_threshold loop, recorded at each evaluation
of the while-condition, together with the ghost list of steps probed
before the state was reached. -/
structure SearchState where
  low : Nat
  high : Nat
  best : Nat
  probed : List Nat
deriving Repr, DecidableEq

/-- Instrumented form of the _search_threshold loop: the list of states
at every while-condition check, in execution order. -/
def searchStatesAux (probe : Nat → Option SensorResult) :
    Nat → SearchState → List SearchState
  | 0, st => [st]
  | fuel + 1, st =>
    if st.low ≤ st.high then
      let mid := (st.low + st.high) / 2
      if 2 ≤ triggeredOf (probe mid) then
        st :: searchStatesAux probe fuel ⟨st.low, mid - 1, mid, st.probed ++ [mid]⟩
      else
        st :: searchStatesAux probe fuel ⟨mid + 1, st.high, st.best, st.probed ++ [mid]⟩
    else [st]

/-- The state trace of one _search_threshold run on the fixed range. -/
def searchTrace (probe : Nat → Option SensorResult) : List SearchState :=
  searchStatesAux probe (START_OF_MOTION_HIGH + 1)
    ⟨START_OF_MOTION_LOW, START_OF_MOTION_HIGH, START_OF_MOTION_HIGH, []⟩

/-- The probed steps that were classified as movement (at least 2
triggered sensors). -/
def movedSteps (probe : Nat → Option SensorResult) (l : List Nat) : List Nat :=
  l.filter (fun m => decide (2 ≤ triggeredOf (probe m)))

/-- The lowest step observed with movement, or the upper search bound 20
when none was. -/
def minMoved (probe : Nat → Option SensorResult) (l : List Nat) : Nat :=
  (movedSteps probe l).foldr min START_OF_MOTION_HIGH

/-- One audio capture (the JSON dict on the audio topic); rms_db and
peak_db keys may be absent. -/
structure AudioData where
  rms_db : Option ℚ
  peak_db : Option ℚ
deriving Repr, DecidableEq

/-- One aggregated speed-table entry, as built by _aggregate_step.
avg_scale_mph distinguishes key-absent (none) from an explicit None value
(some none); the same for the audio fields. err models the "error" key. -/
structure StepEntry where
  speed_step : Nat
  throttle_pct : ℚ
  passes : Nat
  valid_passes : Nat
  audio_rms_db : Option (Option ℚ)
  audio_peak_db : Option (Option ℚ)
  avg_scale_mph : Option (Option ℚ)
  direction : String
  interval_speeds_mph : Option (List ℚ)
  raw_passes : Option (List SensorResult)
  err : Option String
deriving Repr, DecidableEq

/-- SpeedCalibrator._aggregate_step. A pass outcome is none when the pass
was recorded as NO DETECTION, some r otherwise. valid keeps the outcomes
r with r truthy and the avg_speed_mph key present; speeds collects the
values of that key that float() parses. -/
def aggregateStep (step : Nat) (pass_results : List (Option SensorResult))
    (audio_data : Option AudioData) : StepEntry :=
  let valid := (pass_results.filterMap id).filter (fun r => r.avg_speed_mph.isSome)
  let speeds := valid.filterMap (fun r => r.avg_speed_mph.join)
  { speed_step := step
    throttle_pct := step_to_pct step
    passes := pass_results.length
    valid_passes := valid.length
    audio_rms_db := audio_data.map (fun a => a.rms_db)
    audio_peak_db := audio_data.map (fun a => a.peak_db)
    avg_scale_mph :=
      if valid.isEmpty then some none
      else if speeds.isEmpty then none
      else some (some (round1 (speeds.sum / (speeds.length : ℚ))))
    direction :=
      match valid.getLast? with
      | some last => last.direction.getD "unknown"
      | none => "none"
    interval_speeds_mph :=
      match valid.getLast? with
      | some last => last.speeds_mph
      | none => none
    raw_passes := if valid.isEmpty then none else some valid
    err := if valid.isEmpty then some "no_detection" else none }

/-- The command-line options of calibrate_speed.py that run_sweep reads. -/
structure SweepArgs where
  min_step : Nat
  max_step : Nat
  step_inc : Nat
  passes : Nat
  low_passes : Nat
  low_range : Nat
  skip_start_of_motion : Bool
deriving Repr, DecidableEq

/-- The start-of-motion thresholds measured by find_start_of_motion; the
whole record is None when detection was skipped. -/
structure MotionThresholds where
  forward_step : Nat
  reverse_step : Nat
deriving Repr, DecidableEq

/-- run_sweep: effective_min = min(forward, reverse) when start_of_motion
is set and --skip-start-of-motion was not given, else args.min_step. -/
def effectiveMin (som : Option MotionThresholds) (args : SweepArgs) : Nat :=
  match som with
  | some t =>
    if ¬ args.skip_start_of_motion then min t.forward_step t.reverse_step
    else args.min_step
  | none => args.min_step

/-- run_sweep per-step pass count: low_passes when start_of_motion is set
and the step lies within low_range above effective_min, else passes. -/
def numPasses (som : Option MotionThresholds) (args : SweepArgs)
    (effective_min step : Nat) : Nat :=
  if som.isSome ∧ step ≤ effective_min + args.low_range then args.low_passes
  else args.passes

/-- The steps visited by run_sweep:
range(effective_min, max_step + 1, step_inc). A zero increment raises in
Python; it is modelled as an empty sweep. -/
def sweepSteps (args : SweepArgs) (effective_min : Nat) : List Nat :=
  if args.step_inc = 0 then []
  else
    List.range' effective_min
      ((args.max_step + 1 - effective_min + args.step_inc - 1) / args.step_inc)
      args.step_inc

/-- An inbound message payload on some topic: either the raw text that
json.loads rejects, or the parsed record. -/
inductive MsgPayload (α : Type) where
  | malformed (raw : String)
  | parsed (data : α)
deriving Repr, DecidableEq

/-- A parsed response on an id-correlated topic (roster info, import
status, cv result): the request_id key may be absent, the rest of the
JSON object is abstracted as a key-value list. -/
structure RespData where
  request_id : Option String
  body : List (String × String)
deriving Repr, DecidableEq

/-- data.get("request_id", "") in _handle_response. -/
def reqIdOf (d : RespData) : String := d.request_id.getD ""

/-- The waiter registry LocoController._pending: request_id mapped to the
waiter's result slot (none until resolved). -/
def PendingMap : Type := List (String × Option RespData)

/-- LocoController._handle_response restricted to its effect on _pending:
malformed JSON is discarded; otherwise, when the extracted request_id is
non-empty and registered, that waiter's result slot is filled (and its
event set, which the slot becoming some models). -/
def handleResponse (pending : PendingMap) (payload : MsgPayload RespData) :
    PendingMap :=
  match payload with
  | .malformed _ => pending
  | .parsed d =>
    let rid := reqIdOf d
    if rid ≠ "" ∧ (List.lookup rid pending).isSome then
      pending.map (fun e => if e.1 = rid then (e.1, some d) else e)
    else pending

/-- LocoController._wait_for_request: register a fresh waiter under
request_id, let the background delivery thread run _handle_response on
each payload delivered during the wait (in delivery order), then pop the
registration and return the waiter's result slot (none = timeout). -/
def waitForRequest (pending : PendingMap) (request_id : String)
    (delivered : List (MsgPayload RespData)) : Option RespData × PendingMap :=
  let p1 : PendingMap :=
    (request_id, none) :: pending.filter (fun e => ¬ e.1 = request_id)
  let p2 := delivered.foldl handleResponse p1
  ((List.lookup request_id p2).getD none,
   p2.filter (fun e => ¬ e.1 = request_id))

/-- Does this payload carry the given correlation id? -/
def carriesId (payload : MsgPayload RespData) (rid : String) : Bool :=
  match payload with
  | .malformed _ => false
  | .parsed d => reqIdOf d = rid

/-- SpeedCalibrator.wait_for_result: arrived is the sensor-result payload
that set ctrl.last_result before the deadline, if any. json.loads failure
returns None, exactly like the deadline passing with no message. -/
def waitForResult (arrived : Option (MsgPayload SensorResult)) :
    Option SensorResult :=
  match arrived with
  | none => none
  | some (.malformed _) => none
  | some (.parsed r) => some r

/-- One entry of DECODER_VOLUME_TABLE in decoder_volume.py. -/
structure DecoderEntry where
  cv : Nat
  min : Nat
  max : Nat
  default : Nat
  family_match : List String
deriving Repr, DecidableEq

/-- decoder_volume.DECODER_VOLUME_TABLE, in dict insertion order. -/
def DECODER_VOLUME_TABLE : List (String × DecoderEntry) :=
  [("LokSound 5",
    ⟨63, 0, 192, 180, ["loksound 5", "loksound5", "esu loksound"]⟩),
   ("SoundTraxx Tsunami2",
    ⟨128, 0, 255, 255, ["tsunami2", "tsunami 2", "soundtraxx tsunami"]⟩),
   ("SoundTraxx Econami",
    ⟨128, 0, 255, 255, ["econami", "soundtraxx econami"]⟩),
   ("Digitrax SDH",
    ⟨58, 0, 15, 15, ["digitrax sdh", "digitrax sdn", "sdh166", "sdn144"]⟩),
   ("BLI Paragon4",
    ⟨161, 0, 255, 255,
     ["paragon4", "paragon 4", "bli paragon", "paragon3", "paragon 3"]⟩),
   ("TCS WOWSound",
    ⟨128, 0, 255, 200, ["wowsound", "wow sound", "tcs wow"]⟩)]

/-- The record lookup_decoder returns on success. -/
structure VolInfo where
  cv : Nat
  min : Nat
  max : Nat
  default : Nat
  decoder_name : String
deriving Repr, DecidableEq

/-- Python decoder_type.lower().strip(), on the character list: ASCII
lowercase every character, then drop leading and trailing whitespace. -/
def pyLowerStrip (s : String) : List Char :=
  (((s.data.map Char.toLower).dropWhile Char.isWhitespace).reverse.dropWhile
    Char.isWhitespace).reverse

/-- Python substring test pat in hay. -/
def strContains (hay : List Char) (pat : String) : Bool :=
  (List.range (hay.length + 1)).any
    (fun i => decide ((hay.drop i).take pat.data.length = pat.data))

/-- The second phase of lookup_decoder: scan the table in order and
return the first entry one of whose family_match patterns is a substring
of the lowered, stripped model string. -/
def findFamily (dt_lower : List Char) :
    List (String × DecoderEntry) → Option VolInfo
  | [] => none
  | (name, info) :: rest =>
    match info.family_match.find? (fun pat => strContains dt_lower pat) with
    | some _ => some ⟨info.cv, info.min, info.max, info.default, name⟩
    | none => findFamily dt_lower rest

/-- decoder_volume.lookup_decoder. A falsy decoder_type (None is handled
by the caller; the empty string here) returns None; then exact key match;
then the case-insensitive substring scan. -/
def lookupDecoder (decoder_type : String) : Option VolInfo :=
  if decoder_type = "" then none
  else
    let dt_lower := pyLowerStrip decoder_type
    match DECODER_VOLUME_TABLE.find? (fun kv => kv.1 = decoder_type) with
    | some kv =>
      some ⟨kv.2.cv, kv.2.min, kv.2.max, kv.2.default, decoder_type⟩
    | none => findFamily dt_lower DECODER_VOLUME_TABLE

/-- Python round(x) on a real: round half to even. Models round applied
to the float product in compute_new_cv. -/
noncomputable def roundHalfEvenR (x : ℝ) : ℤ :=
  let f := ⌊x⌋
  if x - f < 1 / 2 then f
  else if 1 / 2 < x - f then f + 1
  else if f % 2 = 0 then f else f + 1

/-- decoder_volume.compute_new_cv: a current value at or below zero
returns the range floor; otherwise scale by 10 ** (-delta_db / 20),
round, and clamp into [cv_min, cv_max]. -/
noncomputable def computeNewCv (current_cv : ℤ) (delta_db : ℝ)
    (cv_min cv_max : ℤ) : ℤ :=
  if current_cv ≤ 0 then cv_min
  else
    max cv_min (min cv_max
      (roundHalfEvenR ((current_cv : ℝ) * (10 : ℝ) ^ (-delta_db / 20))))

/-- What compare_and_recommend (audio_calibrate.py) records once the
audio delta is known: with no decoder type, or a type absent from the
volume table, the raw delta is stored with no control-value
recommendation; otherwise the volume CV is read (readCv none models a
failed read, which stores nothing and aborts) and the recommendation is
computed by compute_new_cv. -/
noncomputable def recommendOutcome (decoder_type : Option String) (delta : ℝ)
    (readCv : Nat → Option ℤ) : Option (ℝ × Option Nat × Option ℤ) :=
  match decoder_type with
  | none => some (delta, none, none)
  | some dt =>
    match lookupDecoder dt with
    | none => some (delta, none, none)
    | some vi =>
      match readCv vi.cv with
      | none => none
      | some cur =>
        some (delta, some vi.cv,
          some (computeNewCv cur delta (vi.min : ℤ) (vi.max : ℤ)))

/-! ## Helper lemmas for the correlator -/

theorem lookup_map_update_ne (p : List (String × Option RespData))
    (k rid : String) (d : RespData) (hk : k ≠ rid) :
    List.lookup rid (p.map (fun e => if e.1 = k then (e.1, some d) else e)) =
      List.lookup rid p := by
  induction p with
  | nil => rfl
  | cons a t ih =>
    obtain ⟨ak, av⟩ := a
    simp only [List.map_cons]
    by_cases hak : ak = k
    · rw [if_pos hak]
      have hr : ¬ (rid = ak) := by
        intro h
        rw [hak] at h
        exact hk h.symm
      simp only [List.lookup]
      rw [show (rid == ak) = false from beq_eq_false_iff_ne.mpr hr]
      exact ih
    · rw [if_neg hak]
      simp only [List.lookup]
      cases hbeq : (rid == ak) with
      | true => rfl
      | false => exact ih

theorem lookup_handleResponse_ne (p : PendingMap) (m : MsgPayload RespData)
    (rid : String) (h : carriesId m rid = false) :
    List.lookup rid (handleResponse p m) = List.lookup rid p := by
  cases m with
  | malformed raw => rfl
  | parsed d =>
    have hne : reqIdOf d ≠ rid := by
      intro hc
      rw [carriesId, hc] at h
      simp at h
    simp only [handleResponse]
    by_cases hguard : reqIdOf d ≠ "" ∧ (List.lookup (reqIdOf d) p).isSome
    · rw [if_pos hguard]
      exact lookup_map_update_ne p (reqIdOf d) rid d hne
    · rw [if_neg hguard]

theorem foldl_handleResponse_slot (rid : String) :
    ∀ (msgs : List (MsgPayload RespData)) (p : PendingMap),
      (∀ m ∈ msgs, carriesId m rid = false) →
      List.lookup rid p = some none →
      List.lookup rid (msgs.foldl handleResponse p) = some none := by
  intro msgs
  induction msgs with
  | nil => intro p _ hp; exact hp
  | cons m t ih =>
    intro p h hp
    simp only [List.foldl_cons]
    apply ih _ (fun x hx => h x (List.mem_cons_of_mem _ hx))
    rw [lookup_handleResponse_ne p m rid (h m (List.mem_cons_self _ _))]
    exact hp

theorem lookup_pop_self (rid : String) :
    ∀ (p : PendingMap),
      List.lookup rid (p.filter (fun e => ¬ e.1 = rid)) = none := by
  intro p
  induction p with
  | nil => rfl
  | cons a t ih =>
    obtain ⟨ak, av⟩ := a
    by_cases hak : ak = rid
    · rw [List.filter_cons]
      have hc : (decide ¬ (ak, av).1 = rid) = false := by simp [hak]
      rw [hc]
      simp only [Bool.false_eq_true, if_false]
      exact ih
    · rw [List.filter_cons]
      have : (decide ¬ (ak, av).1 = rid) = true := by simp [hak]
      rw [this]
      simp only [List.lookup]
      rw [show (rid == ak) = false from beq_eq_false_iff_ne.mpr (fun hc => hak hc.symm)]
      exact ih

theorem lookup_register_self (rid : String) (p : PendingMap) :
    List.lookup rid
      (((rid, none) :: p.filter (fun e => ¬ e.1 = rid)) : PendingMap) = some none := by
  simp [List.lookup]

/-- C4: a _wait_for_request call during which no delivered response
carries its correlation id returns the timeout sentinel None, and after
any _wait_for_request call the _pending registry no longer contains the
request id (no leak). -/
theorem c4_wait_timeout_no_leak (request_id : String) (pending : PendingMap)
    (delivered : List (MsgPayload RespData)) :
    ((∀ m ∈ delivered, carriesId m request_id = false) →
      (waitForRequest pending request_id delivered).1 = none) ∧
    List.lookup request_id (waitForRequest pending request_id delivered).2 = none := by
  constructor
  · intro h
    have hreg := lookup_register_self request_id pending
    have hslot := foldl_handleResponse_slot request_id delivered _ h hreg
    simp only [waitForRequest]
    rw [hslot]
    rfl
  · simp only [waitForRequest]
    exact lookup_pop_self request_id _

/-- Witness for C4 at a concrete run: one malformed payload and one
response for a different id are delivered. -/
theorem c4_wait_timeout_no_leak_witness :
    (waitForRequest [] "req-1"
      [.malformed "oops", .parsed ⟨some "rq-2", []⟩]).1 = none ∧
    List.lookup "req-1"
      (waitForRequest [] "req-1"
        [.malformed "oops", .parsed ⟨some "rq-2", []⟩]).2 = none :=
  ⟨(c4_wait_timeout_no_leak "req-1" [] _).1 (by decide),
   (c4_wait_timeout_no_leak "req-1" []
     [.malformed "oops", .parsed ⟨some "rq-2", []⟩]).2⟩

/-- C9: a payload that is not valid JSON gives the caller the same
outcome as a timeout: _handle_response discards it without touching the
waiter registry, a pending _wait_for_request still returns the timeout
sentinel, and wait_for_result returns None for a malformed sensor result
exactly as when no message arrives at all. -/
theorem c9_malformed_like_timeout :
    (∀ (p : PendingMap) (raw : String), handleResponse p (.malformed raw) = p) ∧
    (∀ (request_id : String) (pending : PendingMap)
        (delivered : List (MsgPayload RespData)),
      (∀ m ∈ delivered, ∃ raw, m = .malformed raw) →
      (waitForRequest pending request_id delivered).1 = none) ∧
    (∀ raw : String, waitForResult (some (.malformed raw)) = none) ∧
    waitForResult none = none := by
  refine ⟨fun p raw => rfl, ?_, fun raw => rfl, rfl⟩
  intro request_id pending delivered h
  have hcar : ∀ m ∈ delivered, carriesId m request_id = false := by
    intro m hm
    obtain ⟨raw, rfl⟩ := h m hm
    rfl
  have hreg := lookup_register_self request_id pending
  have hslot := foldl_handleResponse_slot request_id delivered _ hcar hreg
  simp only [waitForRequest]
  rw [hslot]
  rfl

/-- Witness for C9 at a concrete run: two malformed payloads delivered
during the wait, and one malformed sensor result. -/
theorem c9_malformed_like_timeout_witness :
    (waitForRequest [] "req-9" [.malformed "a", .malformed "b"]).1 = none ∧
    waitForResult (some (.malformed "garbage")) = none :=
  ⟨c9_malformed_like_timeout.2.1 "req-9" [] [.malformed "a", .malformed "b"]
    (by
      intro m hm
      rcases List.mem_cons.mp hm with rfl | hm2
      · exact ⟨"a", rfl⟩
      · rcases List.mem_cons.mp hm2 with rfl | hm3
        · exact ⟨"b", rfl⟩
        · cases hm3),
   c9_malformed_like_timeout.2.2.1 "garbage"⟩

/-! ## Sweep pass-count policy -/

/-- A sweep configuration with start-of-motion detection skipped,
distinct baseline and low-speed pass counts. -/
def c5SkippedArgs : SweepArgs := ⟨1, 10, 1, 1, 3, 5, true⟩

/-- Counterexample to C5 as stated: with start-of-motion detection
skipped, step 1 is visited, lies within low_range above the effective
minimum, yet run_sweep uses the baseline pass count, so the biconditional
of the claim fails. -/
theorem c5_counterexample :
    1 ∈ sweepSteps c5SkippedArgs (effectiveMin none c5SkippedArgs) ∧
    1 ≤ effectiveMin none c5SkippedArgs + c5SkippedArgs.low_range ∧
    numPasses none c5SkippedArgs (effectiveMin none c5SkippedArgs) 1 =
      c5SkippedArgs.passes ∧
    ¬ (numPasses none c5SkippedArgs (effectiveMin none c5SkippedArgs) 1 =
        c5SkippedArgs.low_passes ↔
       1 ≤ effectiveMin none c5SkippedArgs + c5SkippedArgs.low_range) := by
  decide

/-- C5 (amended): the per-step pass count equals low_passes exactly when
start-of-motion detection ran (the thresholds are present, equivalently
the skip flag is off) AND the step is at most effective_min + low_range;
otherwise, in particular for every step of a skipped-detection sweep, it
equals the baseline pass count. effective_min is the lower of the two
measured thresholds when detection ran, and the configured minimum step
when it was skipped. -/
theorem c5_amended_pass_policy (args : SweepArgs)
    (som : Option MotionThresholds) (step : Nat)
    (hlink : som.isSome ↔ args.skip_start_of_motion = false)
    (hne : args.low_passes ≠ args.passes)
    (hstep : step ∈ sweepSteps args (effectiveMin som args)) :
    (numPasses som args (effectiveMin som args) step = args.low_passes ↔
      (args.skip_start_of_motion = false ∧
        step ≤ effectiveMin som args + args.low_range)) ∧
    (∀ t, som = some t →
      effectiveMin som args = min t.forward_step t.reverse_step) ∧
    (som = none → effectiveMin som args = args.min_step) := by
  refine ⟨?_, ?_, ?_⟩
  · unfold numPasses
    by_cases hsom : som.isSome
    · have hskip := hlink.mp hsom
      by_cases hle : step ≤ effectiveMin som args + args.low_range
      · simp [hsom, hle, hskip]
      · simp [hsom, hle, hskip, hne, Ne.symm hne]
    · have hskip : args.skip_start_of_motion = true := by
        cases hx : args.skip_start_of_motion
        · exact absurd (hlink.mpr hx) hsom
        · rfl
      simp [hsom, hskip, Ne.symm hne]
  · intro t ht
    subst ht
    have hskip := hlink.mp (by simp)
    simp [effectiveMin, hskip]
  · intro h
    subst h
    rfl

/-- Witness for the amended C5: detection ran with thresholds 4 and 5,
step 4 lies in the elevated band, so three passes are used. -/
theorem c5_amended_pass_policy_witness :
    numPasses (some ⟨4, 5⟩) ⟨1, 10, 1, 1, 3, 5, false⟩
      (effectiveMin (some ⟨4, 5⟩) ⟨1, 10, 1, 1, 3, 5, false⟩) 4 = 3 :=
  ((c5_amended_pass_policy ⟨1, 10, 1, 1, 3, 5, false⟩ (some ⟨4, 5⟩) 4
      (by decide) (by decide) (by decide)).1).mpr ⟨rfl, by decide⟩

/-! ## Aggregator -/

/-- C7: when every pass of a step is a no-detection, _aggregate_step
still returns an entry (total function, no exception) with no numeric
mean (an explicit None), direction "none", and the no_detection error
marker. -/
theorem c7_all_no_detection (step : Nat) (prs : List (Option SensorResult))
    (audio : Option AudioData) (h : ∀ r ∈ prs, r = none) :
    (aggregateStep step prs audio).valid_passes = 0 ∧
    (aggregateStep step prs audio).avg_scale_mph = some none ∧
    (aggregateStep step prs audio).direction = "none" ∧
    (aggregateStep step prs audio).err = some "no_detection" := by
  have hv : prs.filterMap id = [] := by
    rw [List.filterMap_eq_nil_iff]
    exact h
  simp [aggregateStep, hv]

/-- Witness for C7: three no-detection passes. -/
theorem c7_all_no_detection_witness :
    (aggregateStep 12 [none, none, none] none).valid_passes = 0 ∧
    (aggregateStep 12 [none, none, none] none).avg_scale_mph = some none ∧
    (aggregateStep 12 [none, none, none] none).direction = "none" ∧
    (aggregateStep 12 [none, none, none] none).err = some "no_detection" :=
  c7_all_no_detection 12 [none, none, none] none (by decide)

/-- C10: a pass list whose detections all carry an unparseable
avg_speed_mph produces a third entry shape: positive valid-pass count,
direction from the last valid pass, but neither the avg_scale_mph key
nor the no_detection marker; and when only some detections parse, the
mean averages the parseable subset while valid_passes counts every
detection. -/
theorem c10_unparseable_detection_shape :
    ((aggregateStep 12 [some ⟨some 3, some none, some "B-A", none⟩]
        none).valid_passes = 1 ∧
     (aggregateStep 12 [some ⟨some 3, some none, some "B-A", none⟩]
        none).avg_scale_mph = none ∧
     (aggregateStep 12 [some ⟨some 3, some none, some "B-A", none⟩]
        none).err = none ∧
     (aggregateStep 12 [some ⟨some 3, some none, some "B-A", none⟩]
        none).direction = "B-A") ∧
    ((aggregateStep 12
        [some ⟨some 3, some (some 10), some "A-B", none⟩,
         some ⟨some 3, some none, some "B-A", none⟩] none).valid_passes = 2 ∧
     (aggregateStep 12
        [some ⟨some 3, some (some 10), some "A-B", none⟩,
         some ⟨some 3, some none, some "B-A", none⟩] none).avg_scale_mph =
       some (some 10)) := by
  refine ⟨⟨rfl, rfl, rfl, rfl⟩, rfl, ?_⟩
  norm_num [aggregateStep, List.filterMap_cons, List.filter_cons, round1,
    roundHalfEvenQ, Option.join]

theorem length_filterMap_id_countP (l : List (Option SensorResult)) :
    (l.filterMap id).length = l.countP (fun r => r.isSome) := by
  induction l with
  | nil => rfl
  | cons a t ih =>
    cases a <;> simp [List.filterMap_cons, List.countP_cons, ih]

/-- The pass list of the C2 example: a 10 mph detection, a no-detection,
then a 12 mph detection. -/
def c2ExamplePasses : List (Option SensorResult) :=
  [some ⟨some 3, some (some 10), some "A-B", none⟩, none,
   some ⟨some 3, some (some 12), some "B-A", none⟩]

/-- C2: on a pass list holding at least one detection, with every
detection carrying a parseable avg_speed_mph (the outcome shape of the
spec data model), _aggregate_step reports valid_passes equal to the
number of detections, the mean of the detected scale speeds rounded to
one decimal place, and direction and interval speeds from the last
detection in list order. -/
theorem c2_aggregate_valid (step : Nat) (prs : List (Option SensorResult))
    (audio : Option AudioData)
    (hdet : prs.filterMap id ≠ [])
    (hnum : ∀ r ∈ prs.filterMap id, (r.avg_speed_mph.join).isSome = true) :
    (aggregateStep step prs audio).valid_passes =
      prs.countP (fun r => r.isSome) ∧
    (aggregateStep step prs audio).avg_scale_mph =
      some (some (round1
        (((prs.filterMap id).filterMap (fun r => r.avg_speed_mph.join)).sum /
         (((prs.filterMap id).filterMap
             (fun r => r.avg_speed_mph.join)).length : ℚ)))) ∧
    (∃ last, (prs.filterMap id).getLast? = some last ∧
      (aggregateStep step prs audio).direction = last.direction.getD "unknown" ∧
      (aggregateStep step prs audio).interval_speeds_mph = last.speeds_mph) := by
  have hfix : (prs.filterMap id).filter (fun r => r.avg_speed_mph.isSome) =
      prs.filterMap id := by
    apply List.filter_eq_self.mpr
    intro r hr
    have h := hnum r hr
    cases havg : r.avg_speed_mph with
    | none => rw [havg] at h; simp [Option.join] at h
    | some v => simp
  have hspeeds :
      (prs.filterMap id).filterMap (fun r => r.avg_speed_mph.join) ≠ [] := by
    obtain ⟨r, hr⟩ := List.exists_mem_of_ne_nil _ hdet
    have h := hnum r hr
    obtain ⟨q, hq⟩ := Option.isSome_iff_exists.mp h
    intro hnil
    have : q ∈ (prs.filterMap id).filterMap (fun r => r.avg_speed_mph.join) :=
      List.mem_filterMap.mpr ⟨r, hr, hq⟩
    rw [hnil] at this
    cases this
  have hvne : ¬ (prs.filterMap id).isEmpty = true := by
    simpa [List.isEmpty_iff] using hdet
  have hsne :
      ¬ ((prs.filterMap id).filterMap
          (fun r => r.avg_speed_mph.join)).isEmpty = true := by
    simpa [List.isEmpty_iff] using hspeeds
  obtain ⟨last, hlast⟩ :=
    Option.isSome_iff_exists.mp (List.getLast?_isSome.mpr hdet)
  refine ⟨?_, ?_, last, hlast, ?_, ?_⟩
  · simp only [aggregateStep, hfix]
    exact length_filterMap_id_countP prs
  · simp only [aggregateStep, hfix]
    rw [if_neg hvne, if_neg hsne]
  · simp only [aggregateStep, hfix, hlast]
  · simp only [aggregateStep, hfix, hlast]

/-- Witness for C2 on the example pass list of the spec:
two valid passes, mean 11.0 mph, direction from the last valid pass. -/
theorem c2_aggregate_valid_witness :
    (aggregateStep 40 c2ExamplePasses none).valid_passes = 2 ∧
    (aggregateStep 40 c2ExamplePasses none).avg_scale_mph = some (some 11) ∧
    (aggregateStep 40 c2ExamplePasses none).direction = "B-A" := by
  have h := c2_aggregate_valid 40 c2ExamplePasses none (by decide) (by decide)
  refine ⟨?_, ?_, ?_⟩
  · rw [h.1]; rfl
  · rw [h.2.1]
    norm_num [c2ExamplePasses, List.filterMap_cons, round1, roundHalfEvenQ,
      Option.join]
  · obtain ⟨last, hl, hd, _⟩ := h.2.2
    have he : (c2ExamplePasses.filterMap id).getLast? =
        some (⟨some 3, some (some 12), some "B-A", none⟩ : SensorResult) := by
      rfl
    rw [he] at hl
    cases hl
    exact hd

/-! ## Decoder family resolution -/

theorem findFamily_eq_none (table : List (String × DecoderEntry)) (hay : List Char)
    (h : ∀ pr ∈ table, ∀ pat ∈ pr.2.family_match, strContains hay pat = false) :
    findFamily hay table = none := by
  induction table with
  | nil => rfl
  | cons a t ih =>
    obtain ⟨nm, info⟩ := a
    simp only [findFamily]
    have hfind : info.family_match.find? (fun pat => strContains hay pat) = none := by
      rw [List.find?_eq_none]
      intro pat hp
      simp [h (nm, info) (List.mem_cons_self _ _) pat hp]
    rw [hfind]
    exact ih (fun pr hpr => h pr (List.mem_cons_of_mem _ hpr))

/-- C6: lookup_decoder resolves by exact table-key match first, then by
case-insensitive substring match of the family patterns against the
input, scanning the table in order with the first matching pattern
winning; a string matching nothing resolves to None, and in that case
compare_and_recommend still records the raw decibel delta with no
control-value recommendation. -/
theorem c6_decoder_resolution :
    (∀ s e, (s, e) ∈ DECODER_VOLUME_TABLE →
      lookupDecoder s = some ⟨e.cv, e.min, e.max, e.default, s⟩) ∧
    (∀ s, ¬ s = "" →
      DECODER_VOLUME_TABLE.find? (fun kv => kv.1 = s) = none →
      lookupDecoder s = findFamily (pyLowerStrip s) DECODER_VOLUME_TABLE) ∧
    (∀ hay nm info rest,
      findFamily hay ((nm, info) :: rest) =
        if info.family_match.any (fun pat => strContains hay pat) then
          some ⟨info.cv, info.min, info.max, info.default, nm⟩
        else findFamily hay rest) ∧
    (∀ s, ¬ s = "" →
      DECODER_VOLUME_TABLE.find? (fun kv => kv.1 = s) = none →
      (∀ pr ∈ DECODER_VOLUME_TABLE, ∀ pat ∈ pr.2.family_match,
        strContains (pyLowerStrip s) pat = false) →
      lookupDecoder s = none) ∧
    (∀ (s : String) (delta : ℝ) (readCv : Nat → Option ℤ),
      lookupDecoder s = none →
      recommendOutcome (some s) delta readCv = some (delta, none, none)) := by
  refine ⟨?_, ?_, ?_, ?_, ?_⟩
  · intro s e h
    simp only [DECODER_VOLUME_TABLE, List.mem_cons, List.not_mem_nil,
      or_false, Prod.mk.injEq] at h
    rcases h with ⟨rfl, rfl⟩ | ⟨rfl, rfl⟩ | ⟨rfl, rfl⟩ | ⟨rfl, rfl⟩ |
      ⟨rfl, rfl⟩ | ⟨rfl, rfl⟩ <;> rfl
  · intro s hs hf
    simp only [lookupDecoder, if_neg hs, hf]
  · intro hay nm info rest
    by_cases hany : info.family_match.any (fun pat => strContains hay pat)
    · obtain ⟨pat, hp, hpat⟩ := List.any_eq_true.mp hany
      have hsome : (info.family_match.find?
          (fun pat => strContains hay pat)).isSome :=
        List.find?_isSome.mpr ⟨pat, hp, hpat⟩
      obtain ⟨x, hx⟩ := Option.isSome_iff_exists.mp hsome
      simp only [findFamily, hx, if_pos hany]
    · have hnone : info.family_match.find?
          (fun pat => strContains hay pat) = none := by
        rw [List.find?_eq_none]
        intro pat hp hpat
        exact hany (List.any_eq_true.mpr ⟨pat, hp, hpat⟩)
      simp only [findFamily, hnone, if_neg hany]
  · intro s hs hf hpat
    simp only [lookupDecoder, if_neg hs, hf]
    exact findFamily_eq_none _ _ hpat
  · intro s delta readCv h
    simp only [recommendOutcome, h]

/-- Witness for C6: an exact key match, and an unknown model string whose
delta is still recorded without a recommendation. -/
theorem c6_decoder_resolution_witness :
    lookupDecoder "Digitrax SDH" = some ⟨58, 0, 15, 15, "Digitrax SDH"⟩ ∧
    recommendOutcome (some "Generic DCC decoder") 3 (fun _ => none) =
      some (3, none, none) :=
  ⟨c6_decoder_resolution.1 "Digitrax SDH"
      ⟨58, 0, 15, 15, ["digitrax sdh", "digitrax sdn", "sdh166", "sdn144"]⟩
      (by decide),
   c6_decoder_resolution.2.2.2.2 "Generic DCC decoder" 3 (fun _ => none)
      (by decide)⟩

/-! ## Start-of-motion threshold search -/

theorem searchGo_congr (p q : Nat → Option SensorResult)
    (h : ∀ s, 2 ≤ triggeredOf (p s) ↔ 2 ≤ triggeredOf (q s)) :
    ∀ (fuel low high best : Nat),
      searchGo p fuel low high best = searchGo q fuel low high best := by
  intro fuel
  induction fuel with
  | zero => intro low high best; rfl
  | succ n ih =>
    intro low high best
    simp only [searchGo]
    by_cases hlh : low ≤ high
    · rw [if_pos hlh, if_pos hlh]
      by_cases hm : 2 ≤ triggeredOf (p ((low + high) / 2))
      · rw [if_pos hm, if_pos ((h _).mp hm), ih]
      · rw [if_neg hm, if_neg (fun hc => hm ((h _).mpr hc)), ih]
    · rw [if_neg hlh, if_neg hlh]

/-- C1: for every movement oracle that is monotone in the speed step
(at least 2 sensors trigger exactly when the probed step is at least T)
with T in the search range [1, 20], _search_threshold returns exactly T;
moreover each loop iteration classifies movement exactly by the
sensors_triggered at least 2 test and, on movement, records best = mid
and sets high = mid - 1, otherwise sets low = mid + 1. -/
theorem c1_search_threshold (probe : Nat → Option SensorResult) (T : Nat)
    (hT1 : 1 ≤ T) (hT2 : T ≤ 20)
    (hmono : ∀ s, 2 ≤ triggeredOf (probe s) ↔ T ≤ s) :
    searchThreshold probe = T ∧
    (∀ fuel low high best, low ≤ high →
      searchGo probe (fuel + 1) low high best =
        if 2 ≤ triggeredOf (probe ((low + high) / 2)) then
          searchGo probe fuel low ((low + high) / 2 - 1) ((low + high) / 2)
        else
          searchGo probe fuel ((low + high) / 2 + 1) high best) := by
  constructor
  · have hmt : ∀ s, 2 ≤ triggeredOf (monotoneProbe T s) ↔ T ≤ s := by
      intro s
      simp only [monotoneProbe, triggeredOf, Option.getD_some]
      by_cases h : T ≤ s <;> simp [h]
    have hcongr : ∀ s,
        2 ≤ triggeredOf (probe s) ↔ 2 ≤ triggeredOf (monotoneProbe T s) :=
      fun s => (hmono s).trans (hmt s).symm
    unfold searchThreshold
    rw [searchGo_congr probe (monotoneProbe T) hcongr]
    interval_cases T <;> decide
  · intro fuel low high best hlh
    simp only [searchGo, if_pos hlh]

/-- Witness for C1 with the monotone oracle at threshold 7. -/
theorem c1_search_threshold_witness :
    searchThreshold (monotoneProbe 7) = 7 :=
  (c1_search_threshold (monotoneProbe 7) 7 (by decide) (by decide)
    (fun s => by
      simp only [monotoneProbe, triggeredOf, Option.getD_some]
      by_cases h : 7 ≤ s <;> simp [h])).1

/-! ## Volume control-value computation -/

theorem pow10_three_tenths : ((10 : ℝ) ^ ((3 : ℝ) / 10)) ^ (10 : ℕ) = 1000 := by
  rw [← Real.rpow_natCast ((10 : ℝ) ^ ((3 : ℝ) / 10)) 10]
  rw [← Real.rpow_mul (by norm_num : (0:ℝ) ≤ 10)]
  norm_num

theorem pow10_three_tenths_pos : (0:ℝ) < (10 : ℝ) ^ ((3 : ℝ) / 10) :=
  Real.rpow_pos_of_pos (by norm_num) _

theorem pow10_three_tenths_lt_two : (10 : ℝ) ^ ((3 : ℝ) / 10) < 2 := by
  by_contra hc
  push_neg at hc
  have h := pow_le_pow_left₀ (by norm_num : (0:ℝ) ≤ 2) hc 10
  rw [pow10_three_tenths] at h
  norm_num at h

theorem lt_pow10_three_tenths : (1.995 : ℝ) < (10 : ℝ) ^ ((3 : ℝ) / 10) := by
  by_contra hc
  push_neg at hc
  have h := pow_le_pow_left₀ (le_of_lt pow10_three_tenths_pos) hc 10
  rw [pow10_three_tenths] at h
  norm_num at h

theorem roundHalfEvenR_eval (x : ℝ) (n : ℤ) (h1 : (n:ℝ) ≤ x)
    (h2 : x < n + 1/2) : roundHalfEvenR x = n := by
  have hfloor : ⌊x⌋ = n := by
    rw [Int.floor_eq_iff]
    constructor
    · exact h1
    · linarith
  simp only [roundHalfEvenR, hfloor]
  rw [if_pos]
  linarith

theorem roundHalfEvenR_eval_up (x : ℝ) (n : ℤ) (h1 : (n:ℝ) + 1/2 < x)
    (h2 : x < n + 1) : roundHalfEvenR x = n + 1 := by
  have hfloor : ⌊x⌋ = n := by
    rw [Int.floor_eq_iff]
    constructor
    · linarith
    · linarith
  simp only [roundHalfEvenR, hfloor]
  rw [if_neg (by linarith), if_pos (by linarith)]

theorem computeNewCv_halve : computeNewCv 200 6 0 255 = 100 := by
  have hs := pow10_three_tenths_pos
  have hub := pow10_three_tenths_lt_two
  have hlb := lt_pow10_three_tenths
  simp only [computeNewCv]
  rw [if_neg (by norm_num : ¬ (200:ℤ) ≤ 0)]
  rw [show (-(6:ℝ))/20 = -((3:ℝ)/10) by norm_num]
  rw [Real.rpow_neg (by norm_num : (0:ℝ) ≤ 10)]
  have hx : ((200:ℤ):ℝ) * ((10 : ℝ) ^ ((3 : ℝ) / 10))⁻¹ =
      200 / ((10 : ℝ) ^ ((3 : ℝ) / 10)) := by
    push_cast
    ring
  rw [hx]
  have hlo : ((100:ℤ):ℝ) ≤ 200 / ((10 : ℝ) ^ ((3 : ℝ) / 10)) := by
    rw [le_div_iff₀ hs]
    push_cast
    nlinarith
  have hhi : 200 / ((10 : ℝ) ^ ((3 : ℝ) / 10)) < ((100:ℤ):ℝ) + 1/2 := by
    rw [div_lt_iff₀ hs]
    push_cast
    nlinarith
  rw [roundHalfEvenR_eval _ 100 hlo hhi]
  decide

theorem computeNewCv_double : computeNewCv 100 (-6) 0 255 = 200 := by
  have hs := pow10_three_tenths_pos
  have hub := pow10_three_tenths_lt_two
  have hlb := lt_pow10_three_tenths
  simp only [computeNewCv]
  rw [if_neg (by norm_num : ¬ (100:ℤ) ≤ 0)]
  rw [show (-(-6:ℝ))/20 = ((3:ℝ)/10) by norm_num]
  have hlo : ((199:ℤ):ℝ) + 1/2 < ((100:ℤ):ℝ) * ((10 : ℝ) ^ ((3 : ℝ) / 10)) := by
    push_cast
    nlinarith
  have hhi : ((100:ℤ):ℝ) * ((10 : ℝ) ^ ((3 : ℝ) / 10)) < ((199:ℤ):ℝ) + 1 := by
    push_cast
    nlinarith
  rw [roundHalfEvenR_eval_up _ 199 hlo hhi]
  decide

/-- C3: compute_new_cv returns the range floor unconditionally for a
current value at or below zero, and otherwise rounds
currentValue times 10 to the power (-delta / 20) and clamps it into
[cv_min, cv_max]; in particular 200 at +6 dB becomes 100, 100 at -6 dB
becomes 200, and a zero delta is the identity on every positive current
value inside the legal range. -/
theorem c3_compute_new_cv :
    (∀ (c : ℤ) (d : ℝ) (mn mx : ℤ), c ≤ 0 → computeNewCv c d mn mx = mn) ∧
    (∀ (c : ℤ) (d : ℝ) (mn mx : ℤ), 0 < c →
      computeNewCv c d mn mx =
        max mn (min mx
          (roundHalfEvenR ((c : ℝ) * (10 : ℝ) ^ (-d / 20))))) ∧
    computeNewCv 200 6 0 255 = 100 ∧
    computeNewCv 100 (-6) 0 255 = 200 ∧
    (∀ (c mn mx : ℤ), 0 < c → mn ≤ c → c ≤ mx →
      computeNewCv c 0 mn mx = c) := by
  refine ⟨?_, ?_, computeNewCv_halve, computeNewCv_double, ?_⟩
  · intro c d mn mx h
    simp only [computeNewCv, if_pos h]
  · intro c d mn mx h
    simp only [computeNewCv, if_neg (not_le.mpr h)]
  · intro c mn mx hc hmn hmx
    simp only [computeNewCv]
    rw [if_neg (not_le.mpr hc)]
    rw [show (-(0:ℝ))/20 = (0:ℝ) by norm_num, Real.rpow_zero, mul_one]
    rw [roundHalfEvenR_eval _ c (by norm_num) (by linarith)]
    rw [min_eq_right hmx, max_eq_right hmn]

/-- Witness for C3: the zero-delta identity at value 7 in range [0, 255]. -/
theorem c3_compute_new_cv_witness : computeNewCv 7 0 0 255 = 7 :=
  c3_compute_new_cv.2.2.2.2 7 0 255 (by decide) (by decide) (by decide)

/-! ## Search-loop invariants and termination -/


theorem searchStatesAux_ne_nil (probe : Nat → Option SensorResult) :
    ∀ (fuel : Nat) (st : SearchState), searchStatesAux probe fuel st ≠ [] := by
  intro fuel st
  cases fuel with
  | zero => simp [searchStatesAux]
  | succ n =>
    simp only [searchStatesAux]
    split
    · split <;> simp
    · simp

theorem dropLast_cons_ne_nil {α : Type} (a : α) (l : List α) (h : l ≠ []) :
    (a :: l).dropLast = a :: l.dropLast := by
  cases l with
  | nil => exact absurd rfl h
  | cons b t => rfl

theorem getLast?_cons_ne_nil {α : Type} (a : α) (l : List α) (h : l ≠ []) :
    (a :: l).getLast? = l.getLast? := by
  cases l with
  | nil => exact absurd rfl h
  | cons b t => simp [List.getLast?_cons_cons]

theorem searchStates_cond (probe : Nat → Option SensorResult) :
    ∀ (fuel : Nat) (st : SearchState),
      ∀ x ∈ (searchStatesAux probe fuel st).dropLast, x.low ≤ x.high := by
  intro fuel
  induction fuel with
  | zero => intro st x hx; simp [searchStatesAux] at hx
  | succ n ih =>
    intro st x hx
    simp only [searchStatesAux] at hx
    by_cases hcond : st.low ≤ st.high
    · rw [if_pos hcond] at hx
      by_cases hm : 2 ≤ triggeredOf (probe ((st.low + st.high) / 2))
      · rw [if_pos hm,
          dropLast_cons_ne_nil _ _ (searchStatesAux_ne_nil probe n _)] at hx
        rcases List.mem_cons.mp hx with rfl | hx2
        · exact hcond
        · exact ih _ x hx2
      · rw [if_neg hm,
          dropLast_cons_ne_nil _ _ (searchStatesAux_ne_nil probe n _)] at hx
        rcases List.mem_cons.mp hx with rfl | hx2
        · exact hcond
        · exact ih _ x hx2
    · rw [if_neg hcond] at hx
      simp at hx

theorem searchStates_term (probe : Nat → Option SensorResult) :
    ∀ (k : Nat), ∀ (fuel : Nat) (st : SearchState),
      1 ≤ st.low → st.high + 1 - st.low < 2 ^ k → k + 1 ≤ fuel →
      ∃ fin, (searchStatesAux probe fuel st).getLast? = some fin ∧
        fin.high < fin.low ∧
        (searchStatesAux probe fuel st).length ≤ k + 1 := by
  intro k
  induction k with
  | zero =>
    intro fuel st hlow hsize hfuel
    have h0 : st.high + 1 - st.low = 0 := by simpa using hsize
    have hlt : st.high < st.low := by omega
    obtain ⟨f, rfl⟩ : ∃ f, fuel = f + 1 := ⟨fuel - 1, by omega⟩
    have hcond : ¬ st.low ≤ st.high := by omega
    simp only [searchStatesAux, if_neg hcond]
    exact ⟨st, rfl, hlt, by simp⟩
  | succ n ih =>
    intro fuel st hlow hsize hfuel
    obtain ⟨f, rfl⟩ : ∃ f, fuel = f + 1 := ⟨fuel - 1, by omega⟩
    obtain ⟨lo, hi, be, pr⟩ := st
    dsimp only at hlow hsize
    by_cases hcond : lo ≤ hi
    · have hP : 1 ≤ 2 ^ n := Nat.one_le_two_pow
      have hmul : 2 ^ (n + 1) = 2 * 2 ^ n := by
        rw [pow_succ]
        ring
      rw [hmul] at hsize
      simp only [searchStatesAux, if_pos hcond]
      by_cases hm : 2 ≤ triggeredOf (probe ((lo + hi) / 2))
      · rw [if_pos hm]
        obtain ⟨fin, h1, h2, h3⟩ :=
          ih f ⟨lo, (lo + hi) / 2 - 1, (lo + hi) / 2, pr ++ [(lo + hi) / 2]⟩
            (by dsimp only; omega) (by dsimp only; omega) (by omega)
        refine ⟨fin, ?_, h2, ?_⟩
        · rw [getLast?_cons_ne_nil _ _ (searchStatesAux_ne_nil probe f _)]
          exact h1
        · simp only [List.length_cons]
          omega
      · rw [if_neg hm]
        obtain ⟨fin, h1, h2, h3⟩ :=
          ih f ⟨(lo + hi) / 2 + 1, hi, be, pr ++ [(lo + hi) / 2]⟩
            (by dsimp only; omega) (by dsimp only; omega) (by omega)
        refine ⟨fin, ?_, h2, ?_⟩
        · rw [getLast?_cons_ne_nil _ _ (searchStatesAux_ne_nil probe f _)]
          exact h1
        · simp only [List.length_cons]
          omega
    · rw [searchStatesAux, if_neg hcond]
      exact ⟨⟨lo, hi, be, pr⟩, rfl, by dsimp only; omega, by simp⟩

theorem foldr_min_append (l : List Nat) (d m : Nat) :
    (l ++ [m]).foldr min d = min m (l.foldr min d) := by
  induction l with
  | nil => simp [min_comm]
  | cons a t ih =>
    simp only [List.cons_append, List.foldr_cons, ih]
    rw [min_left_comm]

theorem foldr_min_le_mem (l : List Nat) (d : Nat) :
    ∀ m ∈ l, l.foldr min d ≤ m := by
  induction l with
  | nil => intro m hm; simp at hm
  | cons a t ih =>
    intro m hm
    rcases List.mem_cons.mp hm with rfl | h
    · exact min_le_left _ _
    · exact le_trans (min_le_right _ _) (ih m h)

theorem foldr_min_mem (l : List Nat) (d : Nat) (hne : l ≠ [])
    (hbd : ∀ m ∈ l, m ≤ d) : l.foldr min d ∈ l := by
  induction l with
  | nil => exact absurd rfl hne
  | cons a t ih =>
    cases t with
    | nil =>
      simp only [List.foldr_cons, List.foldr_nil]
      rw [min_eq_left (hbd a (by simp))]
      simp
    | cons b u =>
      rcases le_or_lt a ((b :: u).foldr min d) with h | h
      · simp only [List.foldr_cons] at h ⊢
        rw [min_eq_left h]
        simp
      · have hmem := ih (by simp) (fun m hm => hbd m (List.mem_cons_of_mem _ hm))
        simp only [List.foldr_cons] at h hmem ⊢
        rw [min_eq_right (le_of_lt h)]
        exact List.mem_cons_of_mem _ hmem

theorem minMoved_append_moved (probe : Nat → Option SensorResult)
    (l : List Nat) (m : Nat) (h : 2 ≤ triggeredOf (probe m)) :
    minMoved probe (l ++ [m]) = min m (minMoved probe l) := by
  simp only [minMoved, movedSteps, List.filter_append, List.filter_cons,
    List.filter_nil, h, decide_True]
  exact foldr_min_append _ _ _

theorem minMoved_append_not (probe : Nat → Option SensorResult)
    (l : List Nat) (m : Nat) (h : ¬ 2 ≤ triggeredOf (probe m)) :
    minMoved probe (l ++ [m]) = minMoved probe l := by
  simp only [minMoved, movedSteps, List.filter_append, List.filter_cons,
    List.filter_nil, h, decide_False]
  simp

theorem searchStates_inv (probe : Nat → Option SensorResult) :
    ∀ (fuel : Nat) (st : SearchState),
      st.best = minMoved probe st.probed → st.high ≤ st.best →
      st.high ≤ 20 → (∀ m ∈ st.probed, m ≤ 20) →
      ∀ x ∈ searchStatesAux probe fuel st,
        x.best = minMoved probe x.probed ∧ x.high ≤ x.best ∧ x.high ≤ 20 ∧
          ∀ m ∈ x.probed, m ≤ 20 := by
  intro fuel
  induction fuel with
  | zero =>
    intro st h1 h2 h3 h4 x hx
    simp only [searchStatesAux, List.mem_singleton] at hx
    subst hx
    exact ⟨h1, h2, h3, h4⟩
  | succ n ih =>
    intro st h1 h2 h3 h4 x hx
    simp only [searchStatesAux] at hx
    by_cases hcond : st.low ≤ st.high
    · rw [if_pos hcond] at hx
      have hmid_le : (st.low + st.high) / 2 ≤ st.high := by omega
      have hmid20 : (st.low + st.high) / 2 ≤ 20 := le_trans hmid_le h3
      by_cases hm : 2 ≤ triggeredOf (probe ((st.low + st.high) / 2))
      · rw [if_pos hm] at hx
        rcases List.mem_cons.mp hx with rfl | hx2
        · exact ⟨h1, h2, h3, h4⟩
        · refine ih ⟨st.low, (st.low + st.high) / 2 - 1, (st.low + st.high) / 2,
            st.probed ++ [(st.low + st.high) / 2]⟩ ?_ ?_ ?_ ?_ x hx2
          · dsimp only
            rw [minMoved_append_moved probe _ _ hm, ← h1]
            exact (min_eq_left (le_trans hmid_le h2)).symm
          · dsimp only
            omega
          · dsimp only
            omega
          · dsimp only
            intro m hm2
            rcases List.mem_append.mp hm2 with hml | hmr
            · exact h4 m hml
            · rw [List.mem_singleton] at hmr
              subst hmr
              exact hmid20
      · rw [if_neg hm] at hx
        rcases List.mem_cons.mp hx with rfl | hx2
        · exact ⟨h1, h2, h3, h4⟩
        · refine ih ⟨(st.low + st.high) / 2 + 1, st.high, st.best,
            st.probed ++ [(st.low + st.high) / 2]⟩ ?_ ?_ ?_ ?_ x hx2
          · dsimp only
            rw [minMoved_append_not probe _ _ hm]
            exact h1
          · exact h2
          · exact h3
          · dsimp only
            intro m hm2
            rcases List.mem_append.mp hm2 with hml | hmr
            · exact h4 m hml
            · rw [List.mem_singleton] at hmr
              subst hmr
              exact hmid20
    · rw [if_neg hcond] at hx
      rw [List.mem_singleton] at hx
      subst hx
      exact ⟨h1, h2, h3, h4⟩

/-- C8: for every movement oracle, monotone or not, every state of the
_search_threshold loop except the terminal one satisfies low at most
high, the terminal state violates it (termination), the loop checks its
condition at most 6 times (at most 5 probes, logarithmic in the range
width 19), and at every state best equals the lowest step so far observed
with movement, or the upper search bound 20 when no probe has yet
observed movement. -/
theorem c8_search_trace (probe : Nat → Option SensorResult) :
    (∀ st ∈ (searchTrace probe).dropLast, st.low ≤ st.high) ∧
    (∃ fin, (searchTrace probe).getLast? = some fin ∧ fin.high < fin.low) ∧
    (searchTrace probe).length ≤ 6 ∧
    (∀ st ∈ searchTrace probe, st.best = minMoved probe st.probed) ∧
    (∀ st ∈ searchTrace probe,
      (movedSteps probe st.probed = [] → st.best = START_OF_MOTION_HIGH) ∧
      (movedSteps probe st.probed ≠ [] →
        st.best ∈ movedSteps probe st.probed ∧
        ∀ m ∈ movedSteps probe st.probed, st.best ≤ m)) := by
  obtain ⟨fin, hlast, hfin, hlen⟩ :=
    searchStates_term probe 5 (START_OF_MOTION_HIGH + 1)
      ⟨START_OF_MOTION_LOW, START_OF_MOTION_HIGH, START_OF_MOTION_HIGH, []⟩
      (by decide) (by decide) (by decide)
  have hinv := searchStates_inv probe (START_OF_MOTION_HIGH + 1)
    ⟨START_OF_MOTION_LOW, START_OF_MOTION_HIGH, START_OF_MOTION_HIGH, []⟩
    rfl (by decide) (by decide) (by simp)
  refine ⟨searchStates_cond probe _ _, ⟨fin, hlast, hfin⟩, hlen,
    fun st hst => (hinv st hst).1, ?_⟩
  intro st hst
  obtain ⟨hbest, _, _, hbd⟩ := hinv st hst
  constructor
  · intro hempty
    rw [hbest]
    simp only [minMoved, hempty, List.foldr_nil]
  · intro hne
    have hbd2 : ∀ m ∈ movedSteps probe st.probed, m ≤ START_OF_MOTION_HIGH := by
      intro m hm
      exact hbd m (List.mem_of_mem_filter hm)
    refine ⟨?_, ?_⟩
    · rw [hbest]
      exact foldr_min_mem _ _ hne hbd2
    · intro m hm
      rw [hbest]
      exact foldr_min_le_mem _ _ m hm

/-- Witness for C8 at the monotone oracle with threshold 13: the initial
state is in the trace and carries best equal to minMoved of an empty
probe history. -/
theorem c8_search_trace_witness :
    (⟨1, 20, 20, []⟩ : SearchState) ∈ searchTrace (monotoneProbe 13) ∧
    (⟨1, 20, 20, []⟩ : SearchState).best =
      minMoved (monotoneProbe 13) (⟨1, 20, 20, []⟩ : SearchState).probed :=
  ⟨by decide, (c8_search_trace (monotoneProbe 13)).2.2.2.1 _ (by decide)⟩

end TrackCal
